import Mathlib

/-!
Shallow embedding of the examination-system repository (a Flask app): the
attempt lifecycle (`app/controllers/student.py`), grading and spreadsheet
import/export (`app/services/exams.py`), and the data model
(`app/models/__init__.py`).

Modelling conventions:
* machine times are integers (seconds since an arbitrary epoch); a
  `timedelta(minutes=m)` is `60 * m` seconds;
* spreadsheet cells are `String`; the empty string plays the role of both
  `None` and `""` (Python truthiness distinguishes neither for the string
  cells involved);
* database rows are Lean structures, database queries are explicit lookup
  functions or lists passed to the embedded operations;
* `random.shuffle` is an arbitrary permutation, passed in as a parameter.
-/

namespace ExamSys

instance {ε α : Type} [DecidableEq ε] [DecidableEq α] : DecidableEq (Except ε α)
  | .error e, .error f =>
    match decEq e f with
    | isTrue h => isTrue (h ▸ rfl)
    | isFalse h => isFalse (fun hc => h (by cases hc; rfl))
  | .error _, .ok _ => isFalse (fun hc => Except.noConfusion hc)
  | .ok _, .error _ => isFalse (fun hc => Except.noConfusion hc)
  | .ok x, .ok y =>
    match decEq x y with
    | isTrue h => isTrue (h ▸ rfl)
    | isFalse h => isFalse (fun hc => h (by cases hc; rfl))

/-- Python `round(x, 2)` on the exact rational value: round half to even
at the second decimal (`pyRoundHalfEven` is round-half-to-even to an
integer). -/
def pyRoundHalfEven (x : ℚ) : ℤ :=
  let f := ⌊x⌋
  if x - f < 1/2 then f
  else if (1:ℚ)/2 < x - f then f + 1
  else if Even f then f else f + 1

/-- `round(x, 2)` from `grade_attempt` (`app/services/exams.py`). -/
def round2 (x : ℚ) : ℚ := (pyRoundHalfEven (x * 100) : ℚ) / 100

/-- `Choice` row (`app/models/__init__.py`). -/
structure ChoiceRec where
  id : ℕ
  question_id : ℕ
  text : String
  image_path : Option String
  is_correct : Bool
  tenant_id : ℕ
deriving DecidableEq

/-- `Question` row (`app/models/__init__.py`); `choices` is the
relationship list ordered by `Choice.id`. -/
structure QuestionRec where
  id : ℕ
  exam_id : ℕ
  text : String
  qtype : String
  tenant_id : ℕ
  image_path : Option String
  reason : Option String
  reason_image_path : Option String
  choices : List ChoiceRec
deriving DecidableEq

/-- `Attempt` row (`app/models/__init__.py`); `question_order` is the
result of `as_order_list` (the JSON-decoded id list; a decode failure is
the empty list, so the embedding stores the decoded list directly). -/
structure AttemptRec where
  id : ℕ
  exam_id : ℕ
  student_id : ℕ
  tenant_id : ℕ
  started_at : ℤ
  submitted_at : Option ℤ
  question_order : List ℕ
  num_correct : Option ℕ
  num_questions : Option ℕ
  score_percent : Option ℚ
deriving DecidableEq

/-- The score fields computed by `grade_attempt`
(`app/services/exams.py`, lines 164-184). -/
structure GradeResult where
  num_correct : ℕ
  num_questions : ℕ
  score_percent : ℚ
deriving DecidableEq

/-- `{c.id for c in question.choices if c.is_correct}` in `grade_attempt`. -/
def correctChoiceIds (q : QuestionRec) : Finset ℕ :=
  ((q.choices.filter (fun c => c.is_correct)).map (fun c => c.id)).toFinset

/-- One loop iteration of `grade_attempt`: the question `qid` of the order
contributes to `correct_count` iff it resolves to a question of the
attempt's tenant (otherwise `continue`) and the set `given` of submitted
choice ids is non-empty and equal to the set of correct choice ids
(`if given and given == correct_choices`).  `lookup` is
`db.session.get(Question, ·)` and `answers qid` is the set of `choice_id`
of the `Answer` rows of this attempt for question `qid`. -/
def gradedCorrect (tenant : ℕ) (lookup : ℕ → Option QuestionRec)
    (answers : ℕ → Finset ℕ) (qid : ℕ) : Bool :=
  match lookup qid with
  | none => false
  | some q =>
    if q.tenant_id ≠ tenant then false
    else decide ((answers qid).Nonempty ∧ answers qid = correctChoiceIds q)

/-- `grade_attempt` (`app/services/exams.py`, lines 164-184), as a pure
function of the attempt's stored order and the database state. -/
def gradeAttempt (tenant : ℕ) (order : List ℕ) (lookup : ℕ → Option QuestionRec)
    (answers : ℕ → Finset ℕ) : GradeResult :=
  let correct_count := order.countP (gradedCorrect tenant lookup answers)
  let total := order.length
  { num_correct := correct_count
    num_questions := total
    score_percent :=
      if total = 0 then 0 else round2 (((correct_count : ℚ) / (total : ℚ)) * 100) }

/-- `attempt_end_time` (`app/services/exams.py`):
`attempt.started_at + timedelta(minutes=attempt.exam.duration_minutes)`. -/
def attemptEndTime (a : AttemptRec) (durationMinutes : ℕ) : ℤ :=
  a.started_at + 60 * durationMinutes

/-- The mutation performed by `grade_attempt` on the attempt row: stores
the grade and sets `submitted_at` to the current time. -/
def gradeAndSubmit (a : AttemptRec) (lookup : ℕ → Option QuestionRec)
    (answers : ℕ → Finset ℕ) (now : ℤ) : AttemptRec :=
  let g := gradeAttempt a.tenant_id a.question_order lookup answers
  { a with
    num_correct := some g.num_correct
    num_questions := some g.num_questions
    score_percent := some g.score_percent
    submitted_at := some now }

/-- Where a POST to `show_question` redirects. -/
inductive NavTarget where
  | question : ℕ → NavTarget
  | review : NavTarget
deriving DecidableEq

/-- The redirect chosen after an answer POST is stored
(`app/controllers/student.py`, lines 214-222).  `action` is
`request.form.get("action", "next")`, `index` the current 1-based question
index, `total` the length of the attempt's stored order.  No branch
submits the attempt. -/
def navAfterAnswer (action : String) (index total : ℕ) : NavTarget :=
  if action = "previous" ∧ 1 < index then .question (index - 1)
  else if action = "review" then .review
  else
    let next := index + 1
    if total < next then .review else .question next

/-- The choice-id filter applied before inserting `Answer` rows
(`app/controllers/student.py`, lines 202-212): a submitted id is kept iff
`db.session.get(Choice, sid)` finds a row whose `question_id` is the
current question's id; other ids are skipped without error. -/
def validSelectedChoices (choiceLookup : ℕ → Option ChoiceRec) (qid : ℕ)
    (selected : List ℕ) : List ℕ :=
  selected.filter (fun sid =>
    match choiceLookup sid with
    | some c => c.question_id == qid
    | none => false)

/-- Database state after
`Answer.query.filter_by(attempt_id=..., question_id=question.id).delete()`:
the per-question map of this attempt's answer choice-id sets with the
current question emptied. -/
def deleteAnswersFor (answers : ℕ → Finset ℕ) (qid : ℕ) : ℕ → Finset ℕ :=
  fun q => if q = qid then ∅ else answers q

/-- Database state after the insert loop: the current question's answers
are the validated selection, other questions untouched. -/
def insertAnswersFor (answers : ℕ → Finset ℕ) (qid : ℕ) (newIds : List ℕ) :
    ℕ → Finset ℕ :=
  fun q => if q = qid then newIds.toFinset else answers q

/-- The sequence of states made durable while one answer is re-submitted
(`app/controllers/student.py`, lines 199-213): the handler calls
`db.session.commit()` twice, once right after the delete (line 201) and
once after the inserts (line 213), so both listed states are persisted in
this order. -/
def answerWriteCommits (choiceLookup : ℕ → Option ChoiceRec)
    (answers : ℕ → Finset ℕ) (qid : ℕ) (selected : List ℕ) :
    List (ℕ → Finset ℕ) :=
  let afterDelete := deleteAnswersFor answers qid
  let afterInsert :=
    insertAnswersFor afterDelete qid (validSelectedChoices choiceLookup qid selected)
  [afterDelete, afterInsert]

/-- Outcome of one request to `show_question` before the POST body runs
(`app/controllers/student.py`, lines 166-198; this prefix runs for GET and
POST alike). -/
inductive PageOutcome where
  | redirectResult : PageOutcome
  | notFound : PageOutcome
  | autoSubmitted : PageOutcome
  | render : ℤ → PageOutcome
deriving DecidableEq

/-- The access prefix of `show_question` (`app/controllers/student.py`,
lines 166-198) as a transition on the attempt row: an already submitted
attempt redirects to results; an out-of-range index or unresolvable
question is 404; if `time_left_seconds <= 0` the attempt is graded as-is
(`grade_attempt`) and the student is redirected to the result page;
otherwise the page proceeds with the remaining seconds. -/
def showQuestionAccess (a : AttemptRec) (durationMinutes : ℕ)
    (lookup : ℕ → Option QuestionRec) (answers : ℕ → Finset ℕ)
    (index : ℕ) (now : ℤ) : PageOutcome × AttemptRec :=
  if a.submitted_at.isSome then (.redirectResult, a)
  else
    let order := a.question_order
    if index < 1 ∨ order.length < index then (.notFound, a)
    else
      match lookup (order.getD (index - 1) 0) with
      | none => (.notFound, a)
      | some q =>
        if q.exam_id ≠ a.exam_id ∨ q.tenant_id ≠ a.tenant_id then (.notFound, a)
        else
          let timeLeft := attemptEndTime a durationMinutes - now
          if timeLeft ≤ 0 then (.autoSubmitted, gradeAndSubmit a lookup answers now)
          else (.render timeLeft, a)

/-- `review_attempt` (`app/controllers/student.py`, lines 237-256) as a
transition on the attempt row: it resolves the order's questions and the
answer map and renders, with the remaining time floored at 0.  It performs
no write at all — in particular it never calls `grade_attempt` — so the
attempt row is returned unchanged. -/
def reviewAttemptAccess (a : AttemptRec) (durationMinutes : ℕ)
    (lookup : ℕ → Option QuestionRec) (now : ℤ) :
    (List ℕ × ℤ) × AttemptRec :=
  let questions := a.question_order.filter (fun qid =>
    match lookup qid with
    | some q => q.tenant_id == a.tenant_id
    | none => false)
  ((questions, max 0 (attemptEndTime a durationMinutes - now)), a)

/-- `User` row (`app/models/__init__.py`); `instructor_id` is the nullable
foreign key onto the instructor user. -/
structure UserRec where
  id : ℕ
  role : String
  tenant_id : ℕ
  instructor_id : Option ℕ
deriving DecidableEq

/-- `Exam` row (`app/models/__init__.py`).  `created_by` models the raw
column value; the column is declared `nullable=False`, which enters the
theorems as an explicit hypothesis where it matters. -/
structure ExamRec where
  id : ℕ
  tenant_id : ℕ
  created_by : Option ℕ
  start_at : ℤ
  end_at : ℤ
  duration_minutes : ℕ
  question_limit : Option ℤ
  is_closed : Bool
  deleted_at : Option ℤ
  questions : List QuestionRec
deriving DecidableEq

/-- `Exam.has_answer_key` (`app/models/__init__.py`):
`bool(self.questions) and all(any(c.is_correct for c in q.choices) for q ...)`. -/
def hasAnswerKey (e : ExamRec) : Bool :=
  !e.questions.isEmpty && e.questions.all (fun q => q.choices.any (fun c => c.is_correct))

/-- `if not user.instructor_id or exam.created_by != user.instructor_id`
(`app/controllers/student.py`, line 84). -/
def instructorMismatch (e : ExamRec) (u : UserRec) : Bool :=
  match u.instructor_id with
  | none => true
  | some iid => e.created_by != some iid

/-- Outcome of the precondition chain of `start_exam`. -/
inductive StartGateOutcome where
  | notFound
  | forbidden
  | deletedFlash
  | notStartedFlash
  | closedFlash
  | notReadyFlash
  | proceed
deriving DecidableEq

/-- The precondition chain of `start_exam`
(`app/controllers/student.py`, lines 78-101), in source order: missing
exam is 404; a non-admin whose `instructor_id` is unset or differs from
`exam.created_by` is 403; then soft-deleted, not-yet-started and closed
exams flash and redirect; a tenant mismatch is 403; an exam without a
complete answer key flashes; otherwise the attempt logic runs. -/
def startExamGate (lookup : ℕ → Option ExamRec) (examId : ℕ)
    (u : UserRec) (now : ℤ) : StartGateOutcome :=
  match lookup examId with
  | none => .notFound
  | some e =>
    if u.role ≠ "admin" ∧ instructorMismatch e u = true then .forbidden
    else if e.deleted_at.isSome then .deletedFlash
    else if now < e.start_at then .notStartedFlash
    else if e.is_closed then .closedFlash
    else if e.tenant_id ≠ u.tenant_id then .forbidden
    else if ¬ hasAnswerKey e = true then .notReadyFlash
    else .proceed

/-- The exam list built by `student_dashboard`
(`app/controllers/student.py`, lines 23-28): tenant-scoped non-deleted
exams, restricted to `created_by == user.instructor_id` when the student
has an instructor and to `created_by == None` otherwise (the source
comments this second filter with "no exams will match").  The dashboard's
ordering by `start_at` does not affect which exams appear and is omitted. -/
def dashboardExamsFor (exams : List ExamRec) (u : UserRec) : List ExamRec :=
  let base := exams.filter (fun e => e.tenant_id == u.tenant_id && e.deleted_at.isNone)
  match u.instructor_id with
  | some iid => base.filter (fun e => e.created_by == some iid)
  | none => base.filter (fun e => e.created_by == none)

/-- The per-(exam, student) database state read and written by the attempt
branch of `start_exam`: the attempt rows, and the `ExamProgress` row's
`asked_questions` (the JSON-decoded id list; `none` when no row exists,
a decode failure is the empty list). -/
structure StudentExamState where
  attempts : List AttemptRec
  progressAsked : Option (List ℕ)
deriving DecidableEq

/-- The filter of
`Attempt.query.filter_by(exam_id=..., student_id=..., submitted_at=None)`. -/
def isOpenAttemptFor (examId studentId : ℕ) (a : AttemptRec) : Bool :=
  a.exam_id == examId && a.student_id == studentId && a.submitted_at.isNone

/-- `.first()` of the open-attempt query (`app/controllers/student.py`,
line 103). -/
def findOpenAttempt (st : StudentExamState) (examId studentId : ℕ) :
    Option AttemptRec :=
  st.attempts.find? (isOpenAttemptFor examId studentId)

/-- The reset condition of the cycling logic
(`if len(asked_set) >= len(all_qids)`, `app/controllers/student.py`,
line 123). -/
def drawResets (pool : List ℕ) (asked : Finset ℕ) : Prop :=
  pool.length ≤ asked.card

instance (pool : List ℕ) (asked : Finset ℕ) : Decidable (drawResets pool asked) :=
  inferInstanceAs (Decidable (pool.length ≤ asked.card))

/-- The slice `available[: exam.question_limit]`
(`app/controllers/student.py`, lines 130-133), applied only when the
column is set and positive (`if exam.question_limit and exam.question_limit > 0`). -/
def applyLimit (qlimit : Option ℤ) (l : List ℕ) : List ℕ :=
  match qlimit with
  | some k => if 0 < k then l.take k.toNat else l
  | none => l

/-- The question-selection core of `start_exam`
(`app/controllers/student.py`, lines 119-137): `pool` is
`[q.id for q in exam.questions]`, `asked0` the decoded asked-set,
`qlimit` the `exam.question_limit` column and `shuffle` stands for
`random.shuffle`.  Returns `none` on the two flash-and-redirect exits
(empty pool, empty selection), else the selected order and the updated
asked-set (`asked_set.update(selected)`). -/
def drawSelection (shuffle : List ℕ → List ℕ) (pool : List ℕ)
    (qlimit : Option ℤ) (asked0 : Finset ℕ) : Option (List ℕ × Finset ℕ) :=
  if pool = [] then none
  else
    let asked1 := if drawResets pool asked0 then (∅ : Finset ℕ) else asked0
    let available := pool.filter (fun q => decide (q ∉ asked1))
    let asked2 := if available.isEmpty then (∅ : Finset ℕ) else asked1
    let available2 := if available.isEmpty then pool else available
    let selected := applyLimit qlimit (shuffle available2)
    if selected = [] then none
    else some (selected, asked2 ∪ selected.toFinset)

/-- The attempt branch of `start_exam`
(`app/controllers/student.py`, lines 103-150): when an open attempt
exists it is returned with the state untouched (the handler jumps
straight to the redirect); otherwise the `ExamProgress` row is loaded or
created, a selection is drawn, and on success the progress row is updated
(`json.dumps(list(asked_set))`, modelled as the sorted id list) and a new
attempt is appended recording the drawn order and `started_at = now`. -/
def startExamAttemptPhase (shuffle : List ℕ → List ℕ)
    (examId studentId tenantId : ℕ) (pool : List ℕ) (qlimit : Option ℤ)
    (now : ℤ) (newAttemptId : ℕ) (st : StudentExamState) :
    Option AttemptRec × StudentExamState :=
  match findOpenAttempt st examId studentId with
  | some a => (some a, st)
  | none =>
    let st1 : StudentExamState := { st with progressAsked := some (st.progressAsked.getD []) }
    let asked := (st.progressAsked.getD []).toFinset
    match drawSelection shuffle pool qlimit asked with
    | none => (none, st1)
    | some (sel, askedNew) =>
      let att : AttemptRec :=
        { id := newAttemptId
          exam_id := examId
          student_id := studentId
          tenant_id := tenantId
          started_at := now
          submitted_at := none
          question_order := sel
          num_correct := none
          num_questions := some sel.length
          score_percent := none }
      (some att, { attempts := st1.attempts ++ [att], progressAsked := some (askedNew.sort (· ≤ ·)) })

/-- Python `",".join(ss)`. -/
def joinComma : List String → String
  | [] => ""
  | [s] => s
  | s :: rest => s ++ "," ++ joinComma rest

/-- Python `s.split(",")` (no maxsplit) on a character list:
`splitComma [] = [[]]`, matching `"".split(",") == [""]`. -/
def splitComma : List Char → List (List Char)
  | [] => [[]]
  | c :: cs =>
    let r := splitComma cs
    if c = ',' then [] :: r else (c :: r.headD []) :: r.tail

/-- Python `s.strip()`: drop leading and trailing whitespace. -/
def pyStrip (s : String) : String :=
  String.mk (((s.toList.dropWhile Char.isWhitespace).reverse.dropWhile
    Char.isWhitespace).reverse)

/-- Python `s.lower()`. -/
def pyLower (s : String) : String :=
  String.mk (s.toList.map Char.toLower)

/-- Python `s.startswith(pre)`. -/
def strStarts (s pre : String) : Bool :=
  pre.toList.isPrefixOf s.toList

/-- Python `s.replace(" ", "")`. -/
def stripSpaces (s : String) : String :=
  String.mk (s.toList.filter (fun c => c ≠ ' '))

/-- Python `s.replace(" ", "").upper()` on the character list. -/
def cleanupChars (cs : List Char) : List Char :=
  (cs.filter (fun c => c ≠ ' ')).map Char.toUpper

/-- `charJoinComma (ss.map String.toList)` is the character list of
`joinComma ss`. -/
def charJoinComma : List (List Char) → List Char
  | [] => []
  | [p] => p
  | p :: rest => p ++ ',' :: charJoinComma rest

/-- `needle` occurs as a contiguous subsequence of `hay`. -/
def hasSubSeq (needle : List Char) : List Char → Bool
  | [] => needle.isEmpty
  | c :: cs => needle.isPrefixOf (c :: cs) || hasSubSeq needle cs

/-- Python `pat in s` (substring containment). -/
def strContains (s pat : String) : Bool :=
  hasSubSeq pat.toList s.toList

/-- The maximal digit run a regex `\d+` takes at the front of `cs`. -/
def leadingDigits (cs : List Char) : List Char :=
  cs.takeWhile Char.isDigit

/-- Python `int` on a non-empty digit string. -/
def natOfDigits (cs : List Char) : ℕ :=
  cs.foldl (fun n c => 10 * n + (c.toNat - 48)) 0

/-- Header classification of `parse_questions_from_excel`
(`app/services/exams.py`, lines 20-42), applied to an already normalized
(stripped, lower-cased) header.  The `option` branch strips spaces and
plays `re.match("option(\d+).*image", ·)` respectively
`re.match("option(\d+)", ·)`: as `re.match` anchors only at the start,
the first pattern matches exactly when a non-empty digit run follows
`option` and `image` occurs somewhere after it, with the group being the
maximal digit run. -/
def canonicalizeHeader (h : String) : String :=
  if strStarts h "question" && strContains h "image" then "question_image"
  else if strStarts h "question" then "question"
  else if strStarts h "type" then "type"
  else if strStarts h "option" then
    let opt := stripSpaces h
    let rest := opt.toList.drop 6
    let ds := leadingDigits rest
    if ds.isEmpty then ""
    else if hasSubSeq "image".toList (rest.drop ds.length) then
      "option" ++ String.mk ds ++ "_image"
    else "option" ++ String.mk ds
  else if strStarts h "correct" then "correct"
  else if strStarts h "reason" then "reason"
  else h

/-- Normalization plus classification of the header row
(`app/services/exams.py`, lines 17-42); header cells are modelled as
strings (a non-string header normalizes to `""` in the source and an
empty cell already is `""` here). -/
def canonicalHeaders (header : List String) : List String :=
  header.map (fun h => canonicalizeHeader (pyLower (pyStrip h)))

/-- The column index map `idx` (`app/services/exams.py`, lines 43-46):
first occurrence wins.  The source skips empty names when filling the
dict; all lookups are for fixed non-empty names, for which
`List.indexOf?` agrees. -/
def colIdx (canonical : List String) (name : String) : Option ℕ :=
  canonical.indexOf? name

/-- `re.match("option\d+$", h)`: a full match of `option` followed by at
least one digit. -/
def isOptionTextHeader (s : String) : Bool :=
  strStarts s "option" &&
    (let rest := s.toList.drop 6
     !rest.isEmpty && rest.all Char.isDigit)

/-- `re.match("option\d+_image$", h)`: a full match. -/
def isOptionImageHeader (s : String) : Bool :=
  strStarts s "option" &&
    (let rest := s.toList.drop 6
     let ds := leadingDigits rest
     !ds.isEmpty && rest.drop ds.length = "_image".toList)

/-- Sort key of the option text headers (`app/services/exams.py`,
line 57): the number after `option` when it is all digits, else 99. -/
def optionTextKey (s : String) : ℕ :=
  let rest := s.toList.drop 6
  if !rest.isEmpty && rest.all Char.isDigit then natOfDigits rest else 99

/-- Sort key of the option image headers (`app/services/exams.py`,
line 58): the number between `option` and `_image` (99 for an empty
name; only canonical `optionN_image` names reach the sort). -/
def optionImageKey (s : String) : ℕ :=
  if s = "" then 99 else natOfDigits (leadingDigits (s.toList.drop 6))

/-- Stable insertion of `x` into a list sorted in ascending key order,
after any element with an equal key. -/
def insertSorted (key : String → ℕ) (x : String) : List String → List String
  | [] => [x]
  | y :: ys => if key x < key y then x :: y :: ys else y :: insertSorted key x ys

/-- Python `sorted(l, key=key)`: a stable ascending sort by key. -/
def sortByKey (key : String → ℕ) (l : List String) : List String :=
  l.foldr (insertSorted key) []

/-- `option_text_headers` after the sort (`app/services/exams.py`,
lines 55-57). -/
def sortedOptionTextHeaders (canonical : List String) : List String :=
  sortByKey optionTextKey (canonical.filter isOptionTextHeader)

/-- `option_image_headers` after the sort (`app/services/exams.py`,
lines 56-58). -/
def sortedOptionImageHeaders (canonical : List String) : List String :=
  sortByKey optionImageKey (canonical.filter isOptionImageHeader)

/-- `part in letter_map` with `letter_map = list(string.ascii_uppercase)`
plus the resulting `letter_map.index(part)`: defined exactly for the
single-character tokens `A`..`Z`. -/
def letterIndexOf (tok : List Char) : Option ℕ :=
  match tok with
  | [c] => if 'A' ≤ c ∧ c ≤ 'Z' then some (c.toNat - 'A'.toNat) else none
  | _ => none

/-- The `correct` cell parser (`app/services/exams.py`, lines 102-110):
on a non-blank cell, spaces are removed, the cell upper-cased and split
on commas; every token that is a single letter whose alphabet position is
below the surviving option count contributes that 0-based position, in
cell order; other tokens are dropped silently.  A blank cell contributes
nothing. -/
def parseCorrectCell (raw : String) (numOptions : ℕ) : List ℕ :=
  if raw = "" then []
  else
    (splitComma (cleanupChars raw.toList)).filterMap (fun t =>
      (letterIndexOf t).bind (fun i => if i < numOptions then some i else none))

/-- One parsed question definition, the dict appended at
`app/services/exams.py`, lines 114-123. -/
structure QDef where
  text : String
  qtype : String
  options : List (String × Option String)
  correct : List ℕ
  reason : Option String
  image_path : Option String
deriving DecidableEq

/-- The option assembly loop (`app/services/exams.py`, lines 90-95):
pairs each option number with its text, attaches the image cell of the
same number (empty when absent), fails when an image comes with empty
text, and stores `img_val or None`. -/
def buildOptions (imageMap : List (ℕ × String)) :
    List (ℕ × String) → Except String (List (String × Option String))
  | [] => .ok []
  | (num, textVal) :: rest =>
    let imgVal := (((imageMap.find? (fun p => p.1 == num)).map Prod.snd).getD "")
    if imgVal ≠ "" ∧ textVal = "" then
      .error "question has an image for an option but no text"
    else
      match buildOptions imageMap rest with
      | .error e => .error e
      | .ok tail => .ok ((textVal, if imgVal = "" then none else some imgVal) :: tail)

/-- The trailing-empty trim (`app/services/exams.py`, lines 96-97):
`while options and options[-1]["text"] == "" and not options[-1]["image_path"]`. -/
def dropTrailingEmptyOptions (opts : List (String × Option String)) :
    List (String × Option String) :=
  ((opts.reverse).dropWhile (fun o => decide (o.1 = "" ∧ o.2 = none))).reverse

/-- The column information the row loop of `parse_questions_from_excel`
reads from the classified header: the indices of the fixed columns and,
for the option text and image columns, the (option number, column index)
pairs in the sorted header order. -/
structure SheetCtx where
  iQuestion : ℕ
  iType : ℕ
  iQImage : Option ℕ
  iCorrect : Option ℕ
  iReason : Option ℕ
  optionCols : List (ℕ × ℕ)
  imageCols : List (ℕ × ℕ)
deriving DecidableEq

/-- Extraction of the column information from the canonical header
(`app/services/exams.py`, lines 43-58); the `getD 0` defaults are dead
since `resolveHeader` has checked the required names and the option keys
come from the header itself. -/
def mkSheetCtx (canonical : List String) : SheetCtx :=
  { iQuestion := (colIdx canonical "question").getD 0
    iType := (colIdx canonical "type").getD 0
    iQImage := colIdx canonical "question_image"
    iCorrect := colIdx canonical "correct"
    iReason := colIdx canonical "reason"
    optionCols := (sortedOptionTextHeaders canonical).map (fun key =>
      (optionTextKey key, (colIdx canonical key).getD 0))
    imageCols := (sortedOptionImageHeaders canonical).map (fun key =>
      (optionImageKey key, (colIdx canonical key).getD 0)) }

/-- One data row of `parse_questions_from_excel`
(`app/services/exams.py`, lines 65-123), reading cells with
`row.getD i ""` at the column indices of the classified header.
`.ok none` is the `continue` on empty question text. -/
def parseDataRowCtx (ctx : SheetCtx) (row : List String) :
    Except String (Option QDef) :=
  let questionText := row.getD ctx.iQuestion ""
  if questionText = "" then .ok none
  else
    let qtypeRaw := pyLower (pyStrip (row.getD ctx.iType ""))
    let qtype := if strContains qtypeRaw "multi" then "multiple" else "single"
    let qImage :=
      match ctx.iQImage with
      | some i =>
        let raw := row.getD i ""
        if raw = "" then none else some (pyStrip raw)
      | none => none
    let optionPairs := ctx.optionCols.map (fun nc =>
      let v := row.getD nc.2 ""
      (nc.1, if v = "" then "" else pyStrip v))
    let imageMap := ctx.imageCols.map (fun nc =>
      let v := row.getD nc.2 ""
      (nc.1, if v = "" then "" else pyStrip v))
    match buildOptions imageMap optionPairs with
    | .error e => .error e
    | .ok options0 =>
      let options := dropTrailingEmptyOptions options0
      if options.length < 2 then .error "question must have at least two options"
      else if options.any (fun o => decide (o.1 = "")) then
        .error "question has empty option gaps"
      else
        let correct :=
          match ctx.iCorrect with
          | some i => parseCorrectCell (row.getD i "") options.length
          | none => []
        let reason :=
          match ctx.iReason with
          | some i =>
            let raw := row.getD i ""
            if raw = "" then none else some raw
          | none => none
        .ok (some { text := questionText, qtype := qtype, options := options,
                    correct := correct, reason := reason, image_path := qImage })

/-- One data row, from the canonical header. -/
def parseDataRow (canonical : List String) (row : List String) :
    Except String (Option QDef) :=
  parseDataRowCtx (mkSheetCtx canonical) row

/-- The data-row loop (`app/services/exams.py`, lines 64-123): rows in
order, skipped rows dropped, the first row error aborts the parse. -/
def parseRows (canonical : List String) : List (List String) → Except String (List QDef)
  | [] => .ok []
  | r :: rs =>
    match parseDataRow canonical r with
    | .error e => .error e
    | .ok q? =>
      match parseRows canonical rs with
      | .error e => .error e
      | .ok rest =>
        match q? with
        | some q => .ok (q :: rest)
        | none => .ok rest

/-- Header validation (`app/services/exams.py`, lines 43-62): the four
required canonical columns must be present, and between 2 and 6 option
text columns must survive classification. -/
def resolveHeader (header : List String) : Except String (List String) :=
  let canonical := canonicalHeaders header
  if (colIdx canonical "question").isNone || (colIdx canonical "type").isNone ||
      (colIdx canonical "option1").isNone || (colIdx canonical "option2").isNone then
    .error "Invalid template. Please download the provided template to prepare your Excel file."
  else if (sortedOptionTextHeaders canonical).length < 2 then
    .error "At least two options are required (Option1, Option2)."
  else if 6 < (sortedOptionTextHeaders canonical).length then
    .error "Only up to 6 options are supported."
  else .ok canonical

/-- `parse_questions_from_excel` (`app/services/exams.py`, lines 14-126)
over a sheet given as a header row plus data rows of string cells. -/
def parseQuestionsFromExcel (header : List String) (rows : List (List String)) :
    Except String (List QDef) :=
  match resolveHeader header with
  | .error e => .error e
  | .ok canonical =>
    match parseRows canonical rows with
    | .error e => .error e
    | .ok qs =>
      if qs.isEmpty then .error "No questions found in the uploaded Excel file."
      else .ok qs

/-- `list(string.ascii_uppercase)`. -/
def asciiUppercase : List Char := "ABCDEFGHIJKLMNOPQRSTUVWXYZ".toList

/-- `letter_map[i]` as a one-character string (used only for `i < 26`). -/
def letterStr (i : ℕ) : String := String.mk [asciiUppercase.getD i 'A']

/-- `list(string.ascii_lowercase)`. -/
def asciiLowercase : List Char := "abcdefghijklmnopqrstuvwxyz".toList

/-- An arbitrary spelling of letter `i` as it may appear in a `correct`
cell: upper or lower case, optionally padded with spaces. -/
def letterTok (i : ℕ) (lower pad : Bool) : String :=
  let base := String.mk [(if lower then asciiLowercase else asciiUppercase).getD i 'A']
  if pad then " " ++ base ++ " " else base

/-- The exported `Correct (letters)` cell
(`app/services/exams.py`, lines 205-219):
`",".join(letter_map[idx] for idx, c in enumerate(options) if c.is_correct and idx < 26)`. -/
def exportCorrectCell (cs : List ChoiceRec) : String :=
  joinComma ((cs.enum.filter (fun p => p.2.is_correct && decide (p.1 < 26))).map
    (fun p => letterStr p.1))

/-- The twelve option cells of an exported row
(`app/services/exams.py`, lines 212-218): text and image (or `""`) for
each existing choice, `"", ""` padding up to 6 options. -/
def exportOptionCells (cs : List ChoiceRec) : List String :=
  ((List.range 6).map (fun i =>
    match cs.get? i with
    | some c => [c.text, c.image_path.getD ""]
    | none => ["", ""])).flatten

/-- The exported header row (`app/services/exams.py`, lines 191-204):
the fixed three leading columns, `OptionN` and `OptionNImage` for
`N = 1..6`, then the correct and reason columns. -/
def exportHeader : List String :=
  ["Question", "QuestionImage", "Type (single/multiple)",
   "Option1", "Option1Image", "Option2", "Option2Image",
   "Option3", "Option3Image", "Option4", "Option4Image",
   "Option5", "Option5Image", "Option6", "Option6Image",
   "Correct (letters)", "Reason (optional)"]

/-- One exported data row (`app/services/exams.py`, lines 206-221). -/
def exportRow (q : QuestionRec) : List String :=
  [q.text, q.image_path.getD "", q.qtype] ++ exportOptionCells q.choices ++
    [exportCorrectCell q.choices, q.reason.getD ""]

/-- `export_exam_to_workbook` (`app/services/exams.py`, lines 187-222) as
the produced sheet: the fixed header plus one row per question in storage
order. -/
def exportWorkbook (qs : List QuestionRec) : List String × List (List String) :=
  (exportHeader, qs.map exportRow)

/-- The 0-based positions of the correct choices of a question, in
order. -/
def corrIdxList (cs : List ChoiceRec) : List ℕ :=
  (cs.enum.filter (fun p => p.2.is_correct)).map (fun p => p.1)

/-- The canonical header list obtained from the exported header. -/
def exportCanonical : List String := canonicalHeaders exportHeader

/-- What one exported choice becomes after a re-import: the text survives
unchanged (it is non-empty and strip-invariant for well-formed data) and
the image cell is stripped and re-normalized to `Option`. -/
def importedOption (c : ChoiceRec) : String × Option String :=
  let img := c.image_path.getD ""
  let imgVal := if img = "" then "" else pyStrip img
  (c.text, if imgVal = "" then none else some imgVal)

/-- What an exported question-image cell becomes after a re-import. -/
def importedImage (qimg : Option String) : Option String :=
  let raw := qimg.getD ""
  if raw = "" then none else some (pyStrip raw)

/-- Well-formedness of a stored question, as guaranteed by the import and
edit paths: non-empty text, a stored `single`/`multiple` type, 2 to 6
choices with non-empty strip-invariant texts, and no empty-string
explanation (the column stores `NULL` instead). -/
def WellFormedQuestion (q : QuestionRec) : Prop :=
  q.text ≠ "" ∧
  (q.qtype = "single" ∨ q.qtype = "multiple") ∧
  2 ≤ q.choices.length ∧ q.choices.length ≤ 6 ∧
  (∀ c ∈ q.choices, c.text ≠ "" ∧ pyStrip c.text = c.text) ∧
  q.reason ≠ some ""

instance (q : QuestionRec) : Decidable (WellFormedQuestion q) :=
  inferInstanceAs (Decidable (q.text ≠ "" ∧
    (q.qtype = "single" ∨ q.qtype = "multiple") ∧
    2 ≤ q.choices.length ∧ q.choices.length ≤ 6 ∧
    (∀ c ∈ q.choices, c.text ≠ "" ∧ pyStrip c.text = c.text) ∧
    q.reason ≠ some ""))

/-! ### Sample data for witnesses and counterexamples -/

/-- A question with one correct choice, used by concrete instances. -/
def sampleQuestion7 : QuestionRec :=
  { id := 7, exam_id := 2, text := "q7", qtype := "single", tenant_id := 1,
    image_path := none, reason := none, reason_image_path := none,
    choices := [{ id := 70, question_id := 7, text := "x", image_path := none,
                  is_correct := true, tenant_id := 1 }] }

/-- A multiple-type question with two correct choices. -/
def sampleQuestion8 : QuestionRec :=
  { id := 8, exam_id := 2, text := "q8", qtype := "multiple", tenant_id := 1,
    image_path := none, reason := none, reason_image_path := none,
    choices := [{ id := 80, question_id := 8, text := "y", image_path := none,
                  is_correct := true, tenant_id := 1 },
                { id := 81, question_id := 8, text := "z", image_path := none,
                  is_correct := true, tenant_id := 1 },
                { id := 82, question_id := 8, text := "w", image_path := none,
                  is_correct := false, tenant_id := 1 }] }

/-- Question lookup over the two sample questions. -/
def sampleQuestionLookup : ℕ → Option QuestionRec := fun qid =>
  if qid = 7 then some sampleQuestion7
  else if qid = 8 then some sampleQuestion8
  else none

/-- An open (unsubmitted) attempt whose deadline has long passed at time
10000 (it ends at 1800 with a 30-minute exam). -/
def expiredOpenAttempt : AttemptRec :=
  { id := 1, exam_id := 2, student_id := 3, tenant_id := 1, started_at := 0,
    submitted_at := none, question_order := [7, 8], num_correct := none,
    num_questions := some 2, score_percent := none }

/-- Answer state answering question 7 with choice 10 (used to exhibit the
intermediate commit of an answer rewrite). -/
def sampleAnswers : ℕ → Finset ℕ := fun q => if q = 7 then {70} else ∅

/-- Choice lookup with the sample choices of questions 7 and 8. -/
def sampleChoiceLookup : ℕ → Option ChoiceRec := fun cid =>
  if cid = 70 then
    some { id := 70, question_id := 7, text := "x", image_path := none,
           is_correct := true, tenant_id := 1 }
  else if cid = 80 then
    some { id := 80, question_id := 8, text := "y", image_path := none,
           is_correct := true, tenant_id := 1 }
  else none

/-- An open attempt of student 3 on exam 2. -/
def sampleOpenAttempt : AttemptRec :=
  { id := 5, exam_id := 2, student_id := 3, tenant_id := 1, started_at := 100,
    submitted_at := none, question_order := [7, 8], num_correct := none,
    num_questions := some 2, score_percent := none }

/-- Per-(exam, student) state holding the open attempt and a progress row. -/
def sampleStartState : StudentExamState :=
  { attempts := [sampleOpenAttempt], progressAsked := some [7] }

/-- A live exam of tenant 1 created by instructor 4. -/
def sampleExam : ExamRec :=
  { id := 2, tenant_id := 1, created_by := some 4, start_at := 0, end_at := 10000,
    duration_minutes := 30, question_limit := none, is_closed := false,
    deleted_at := none, questions := [sampleQuestion7, sampleQuestion8] }

/-- Exam lookup resolving only the sample exam. -/
def sampleExamLookup : ℕ → Option ExamRec := fun eid =>
  if eid = 2 then some sampleExam else none

/-- A student user of tenant 1 with no assigned instructor. -/
def orphanStudent : UserRec :=
  { id := 3, role := "student", tenant_id := 1, instructor_id := none }

/-- A well-formed question with three choices, an option image, a reason
and a two-element answer key, used for the round-trip witness. -/
def roundTripQ1 : QuestionRec :=
  { id := 1, exam_id := 2, text := "Q1", qtype := "multiple", tenant_id := 1,
    image_path := none, reason := some "why", reason_image_path := none,
    choices := [{ id := 10, question_id := 1, text := "a", image_path := none,
                  is_correct := true, tenant_id := 1 },
                { id := 11, question_id := 1, text := "b", image_path := some "img.png",
                  is_correct := false, tenant_id := 1 },
                { id := 12, question_id := 1, text := "c", image_path := none,
                  is_correct := true, tenant_id := 1 }] }

/-! ### Theorems -/

/-- C4 counterexample: in `show_question`, submitting with action
`previous` while at the first question is not a no-op — the handler falls
through to the next-question branch and redirects to question 2 (here on
an attempt with 3 questions). -/
theorem previous_at_first_question_advances :
    navAfterAnswer "previous" 1 3 = NavTarget.question 2 ∧
      navAfterAnswer "previous" 1 3 ≠ NavTarget.question 1 := by
  decide

/-- C4 amended: submitting with `previous` at the first question falls
through to the next-question behaviour (question 2, or the review page
when the attempt has a single question), and submitting with `next` at
the last question routes to the review page; no navigation branch submits
the attempt. -/
theorem navigation_previous_first_and_next_last :
    ∀ total : ℕ,
      navAfterAnswer "previous" 1 total =
        (if total < 2 then NavTarget.review else NavTarget.question 2) ∧
      navAfterAnswer "next" total total = NavTarget.review := by
  intro total
  constructor
  · simp [navAfterAnswer]
  · simp [navAfterAnswer]

/-- C5 counterexample: the answer rewrite commits twice; the first
committed state has the old answers of question 7 deleted (empty set)
while the new selection `[80]`… is not yet present, so an intermediate
partial state is persisted, contradicting the claim that it never is. -/
theorem answer_replacement_intermediate_state_persisted :
    sampleAnswers 7 = ({70} : Finset ℕ) ∧
      ((answerWriteCommits sampleChoiceLookup sampleAnswers 7 [70]).getD 0 (fun _ => ∅)) 7
        = (∅ : Finset ℕ) ∧
      ((answerWriteCommits sampleChoiceLookup sampleAnswers 7 [70]).getD 1 (fun _ => ∅)) 7
        = ({70} : Finset ℕ) := by
  decide

/-- C5 amended: replacing one question's answers is two separately
committed steps — the deletion of the prior answers is committed first,
then the validated inserts are committed — so the intermediate state with
the question's answers deleted and the new ones absent is persisted
between the commits; every committed state leaves the answers of other
questions unchanged, and the final commit holds exactly the validated
selection. -/
theorem answer_replacement_two_commit_structure
    (choiceLookup : ℕ → Option ChoiceRec) (answers : ℕ → Finset ℕ)
    (qid : ℕ) (selected : List ℕ) :
    (answerWriteCommits choiceLookup answers qid selected).length = 2 ∧
      (∀ s ∈ answerWriteCommits choiceLookup answers qid selected,
        ∀ q, q ≠ qid → s q = answers q) ∧
      ((answerWriteCommits choiceLookup answers qid selected).getD 0 (fun _ => ∅)) qid
        = (∅ : Finset ℕ) ∧
      ((answerWriteCommits choiceLookup answers qid selected).getD 1 (fun _ => ∅)) qid
        = (validSelectedChoices choiceLookup qid selected).toFinset := by
  refine ⟨rfl, ?_, ?_, ?_⟩
  · intro s hs q hq
    simp only [answerWriteCommits, List.mem_cons, List.not_mem_nil, or_false] at hs
    rcases hs with h | h <;> subst h <;>
      simp [deleteAnswersFor, insertAnswersFor, hq]
  · simp [answerWriteCommits, deleteAnswersFor]
  · simp [answerWriteCommits, insertAnswersFor]

/-- C5 witness: the two-commit structure at a concrete rewrite. -/
theorem answer_replacement_two_commit_structure_witness :
    (answerWriteCommits sampleChoiceLookup sampleAnswers 7 [70]).length = 2 ∧
      (∀ s ∈ answerWriteCommits sampleChoiceLookup sampleAnswers 7 [70],
        ∀ q, q ≠ 7 → s q = sampleAnswers q) ∧
      ((answerWriteCommits sampleChoiceLookup sampleAnswers 7 [70]).getD 0 (fun _ => ∅)) 7
        = (∅ : Finset ℕ) ∧
      ((answerWriteCommits sampleChoiceLookup sampleAnswers 7 [70]).getD 1 (fun _ => ∅)) 7
        = (validSelectedChoices sampleChoiceLookup 7 [70]).toFinset :=
  answer_replacement_two_commit_structure sampleChoiceLookup sampleAnswers 7 [70]

/-- C9: in the state committed by the answer rewrite, a choice id is
stored for the answered question iff it was submitted and resolves to an
existing `Choice` row belonging to that question; ids that do not are
silently dropped (the write itself never fails). -/
theorem stored_answers_reference_valid_choices
    (choiceLookup : ℕ → Option ChoiceRec) (answers : ℕ → Finset ℕ)
    (qid : ℕ) (selected : List ℕ) :
    ∀ cid,
      cid ∈ ((answerWriteCommits choiceLookup answers qid selected).getD 1 (fun _ => ∅)) qid ↔
        (cid ∈ selected ∧ ∃ c, choiceLookup cid = some c ∧ c.question_id = qid) := by
  intro cid
  have hstep : ((answerWriteCommits choiceLookup answers qid selected).getD 1 (fun _ => ∅)) qid
      = (validSelectedChoices choiceLookup qid selected).toFinset := by
    simp [answerWriteCommits, insertAnswersFor]
  rw [hstep, List.mem_toFinset]
  unfold validSelectedChoices
  rw [List.mem_filter]
  constructor
  · rintro ⟨hmem, hval⟩
    refine ⟨hmem, ?_⟩
    cases hl : choiceLookup cid with
    | none => rw [hl] at hval; simp at hval
    | some c =>
      rw [hl] at hval
      exact ⟨c, rfl, by simpa using hval⟩
  · rintro ⟨hmem, c, hl, hqc⟩
    exact ⟨hmem, by simp [hl, hqc]⟩

/-- C9 witness: choice 70 belongs to question 7 and is stored; at the
same input, submitted id 99 resolves to no choice and is dropped. -/
theorem stored_answers_reference_valid_choices_witness :
    70 ∈ ((answerWriteCommits sampleChoiceLookup sampleAnswers 7 [70, 99]).getD 1
        (fun _ => ∅)) 7 ↔
      (70 ∈ ([70, 99] : List ℕ) ∧
        ∃ c, sampleChoiceLookup 70 = some c ∧ c.question_id = 7) :=
  stored_answers_reference_valid_choices sampleChoiceLookup sampleAnswers 7 [70, 99] 70

/-- C7: when an open (unsubmitted) attempt exists for the (exam, student)
pair, `start_exam` returns it and performs no write: no attempt is
created, the stored order and start time are untouched, and the progress
state is neither read nor changed. -/
theorem start_with_open_attempt_resumes_unchanged
    (shuffle : List ℕ → List ℕ) (examId studentId tenantId : ℕ) (pool : List ℕ)
    (qlimit : Option ℤ) (now : ℤ) (newAttemptId : ℕ) (st : StudentExamState)
    (a : AttemptRec) (h : findOpenAttempt st examId studentId = some a) :
    startExamAttemptPhase shuffle examId studentId tenantId pool qlimit now newAttemptId st
      = (some a, st) := by
  simp [startExamAttemptPhase, h]

/-- C7 witness: resuming the concrete open attempt leaves the concrete
state intact. -/
theorem start_with_open_attempt_resumes_unchanged_witness :
    findOpenAttempt sampleStartState 2 3 = some sampleOpenAttempt ∧
      startExamAttemptPhase id 2 3 1 [7, 8, 9] none 0 6 sampleStartState
        = (some sampleOpenAttempt, sampleStartState) :=
  ⟨by decide,
    start_with_open_attempt_resumes_unchanged id 2 3 1 [7, 8, 9] none 0 6
      sampleStartState sampleOpenAttempt (by decide)⟩

/-- C10: a student with no assigned instructor hits the 403 branch of
`start_exam` for every existing exam — the check precedes the deleted,
time-window, closed, tenant and readiness checks — and, because
`Exam.created_by` is a NOT NULL column, the dashboard filter
`created_by == None` matches no exam, so the dashboard lists none. -/
theorem student_without_instructor_forbidden
    (lookup : ℕ → Option ExamRec) (examId : ℕ) (u : UserRec) (now : ℤ)
    (e : ExamRec) (exams : List ExamRec)
    (hex : lookup examId = some e) (hrole : u.role = "student")
    (hinst : u.instructor_id = none)
    (hnn : ∀ ex ∈ exams, ex.created_by ≠ none) :
    startExamGate lookup examId u now = StartGateOutcome.forbidden ∧
      dashboardExamsFor exams u = [] := by
  constructor
  · simp [startExamGate, hex, instructorMismatch, hinst, hrole]
  · simp only [dashboardExamsFor, hinst]
    rw [List.filter_eq_nil_iff]
    intro ex hx
    have hmem : ex ∈ exams := (List.mem_filter.mp hx).1
    simpa using hnn ex hmem

/-- C10 witness: the concrete instructor-less student is rejected on the
concrete exam and sees an empty dashboard over a one-exam database. -/
theorem student_without_instructor_forbidden_witness :
    (sampleExamLookup 2 = some sampleExam ∧ orphanStudent.role = "student" ∧
      orphanStudent.instructor_id = none ∧
      (∀ ex ∈ [sampleExam], ex.created_by ≠ none)) ∧
    (startExamGate sampleExamLookup 2 orphanStudent 50 = StartGateOutcome.forbidden ∧
      dashboardExamsFor [sampleExam] orphanStudent = []) :=
  ⟨by decide,
    student_without_instructor_forbidden sampleExamLookup 2 orphanStudent 50
      sampleExam [sampleExam] (by decide) (by decide) (by decide) (by decide)⟩

/-- C2 counterexample: an access to the review page of an open attempt
whose deadline has passed (`review_attempt`, one of the accesses the
claim quantifies over) does not transition the attempt to submitted — the
handler performs no write — so not every post-deadline access
auto-submits. -/
theorem review_access_after_deadline_not_submitted :
    attemptEndTime expiredOpenAttempt 30 - 10000 ≤ 0 ∧
      expiredOpenAttempt.submitted_at = none ∧
      (reviewAttemptAccess expiredOpenAttempt 30 sampleQuestionLookup 10000).2
        = expiredOpenAttempt ∧
      (reviewAttemptAccess expiredOpenAttempt 30 sampleQuestionLookup 10000).2.submitted_at
        = none := by
  decide

/-- C2 amended: an access to the question page (the `show_question`
handler, serving GET and POST) of an open attempt with a valid index and
resolvable question auto-submits the attempt once the remaining time is
≤ 0, grading it as-is — a question with an empty recorded answer set is
counted incorrect — while review-page accesses never transition the
attempt. -/
theorem question_page_access_after_deadline_auto_submits
    (a : AttemptRec) (dur : ℕ) (lookup : ℕ → Option QuestionRec)
    (answers : ℕ → Finset ℕ) (index : ℕ) (now : ℤ) (q : QuestionRec)
    (hopen : a.submitted_at = none) (h1 : 1 ≤ index)
    (h2 : index ≤ a.question_order.length)
    (hq : lookup (a.question_order.getD (index - 1) 0) = some q)
    (hex : q.exam_id = a.exam_id) (ht : q.tenant_id = a.tenant_id)
    (hlate : attemptEndTime a dur - now ≤ 0) :
    showQuestionAccess a dur lookup answers index now
        = (PageOutcome.autoSubmitted, gradeAndSubmit a lookup answers now) ∧
      (gradeAndSubmit a lookup answers now).submitted_at = some now ∧
      (gradeAndSubmit a lookup answers now).num_correct
        = some (a.question_order.countP (gradedCorrect a.tenant_id lookup answers)) ∧
      (∀ qid, answers qid = ∅ →
        gradedCorrect a.tenant_id lookup answers qid = false) ∧
      (∀ dur2 now2, (reviewAttemptAccess a dur2 lookup now2).2 = a) := by
  refine ⟨?_, rfl, rfl, ?_, fun _ _ => rfl⟩
  · have hne0 : ¬ index = 0 := by omega
    have hlen : ¬ a.question_order.length < index := by omega
    have hq' : lookup (a.question_order[index - 1]?.getD 0) = some q := by
      simpa [List.getD] using hq
    simp [showQuestionAccess, hopen, hne0, hlen, hq', hex, ht, hlate]
  · intro qid h0
    unfold gradedCorrect
    cases hl : lookup qid with
    | none => rfl
    | some q' => simp [h0]

/-- C2 amended witness: the expired open attempt auto-submits when its
first question page is accessed at time 10000. -/
theorem question_page_access_after_deadline_auto_submits_witness :
    (expiredOpenAttempt.submitted_at = none ∧ 1 ≤ 1 ∧
      1 ≤ expiredOpenAttempt.question_order.length ∧
      sampleQuestionLookup (expiredOpenAttempt.question_order.getD 0 0)
        = some sampleQuestion7 ∧
      sampleQuestion7.exam_id = expiredOpenAttempt.exam_id ∧
      sampleQuestion7.tenant_id = expiredOpenAttempt.tenant_id ∧
      attemptEndTime expiredOpenAttempt 30 - 10000 ≤ 0) ∧
    (showQuestionAccess expiredOpenAttempt 30 sampleQuestionLookup (fun _ => ∅) 1 10000
        = (PageOutcome.autoSubmitted,
            gradeAndSubmit expiredOpenAttempt sampleQuestionLookup (fun _ => ∅) 10000) ∧
      (gradeAndSubmit expiredOpenAttempt sampleQuestionLookup (fun _ => ∅) 10000).submitted_at
        = some 10000 ∧
      (gradeAndSubmit expiredOpenAttempt sampleQuestionLookup (fun _ => ∅) 10000).num_correct
        = some (expiredOpenAttempt.question_order.countP
            (gradedCorrect expiredOpenAttempt.tenant_id sampleQuestionLookup (fun _ => ∅))) ∧
      (∀ qid, (fun _ => (∅ : Finset ℕ)) qid = ∅ →
        gradedCorrect expiredOpenAttempt.tenant_id sampleQuestionLookup (fun _ => ∅) qid
          = false) ∧
      (∀ dur2 now2,
        (reviewAttemptAccess expiredOpenAttempt dur2 sampleQuestionLookup now2).2
          = expiredOpenAttempt)) :=
  ⟨by decide,
    question_page_access_after_deadline_auto_submits expiredOpenAttempt 30
      sampleQuestionLookup (fun _ => ∅) 1 10000 sampleQuestion7 (by decide) (by decide)
      (by decide) (by decide) (by decide) (by decide) (by decide)⟩

/-- C1: postcondition of `grade_attempt` when every question of the
stored order resolves within the attempt's tenant — a question counts as
correct iff its submitted choice-id set is non-empty and equals the
question's correct choice-id set (an empty submitted set never matches),
`num_questions` is the order's length, and the score is
`round(100 * correct / total, 2)` with score 0 when the order is empty. -/
theorem grade_attempt_postcondition
    (tenant : ℕ) (order : List ℕ) (lookup : ℕ → Option QuestionRec)
    (answers : ℕ → Finset ℕ)
    (h : ∀ qid ∈ order, ∃ q, lookup qid = some q ∧ q.tenant_id = tenant) :
    (gradeAttempt tenant order lookup answers).num_questions = order.length ∧
      (∀ qid ∈ order,
        gradedCorrect tenant lookup answers qid = true ↔
          ((answers qid).Nonempty ∧
            ∃ q, lookup qid = some q ∧ answers qid = correctChoiceIds q)) ∧
      (∀ qid ∈ order, answers qid = ∅ →
        gradedCorrect tenant lookup answers qid = false) ∧
      (gradeAttempt tenant order lookup answers).num_correct
        = order.countP (gradedCorrect tenant lookup answers) ∧
      (gradeAttempt tenant order lookup answers).score_percent
        = (if order.length = 0 then 0
           else round2 (100 * ((order.countP (gradedCorrect tenant lookup answers) : ℚ))
             / (order.length : ℚ))) := by
  refine ⟨rfl, ?_, ?_, rfl, ?_⟩
  · intro qid hm
    obtain ⟨q, hlq, hqt⟩ := h qid hm
    unfold gradedCorrect
    rw [hlq]
    simp only [hqt, ne_eq, not_true_eq_false, if_false, decide_eq_true_eq]
    constructor
    · rintro ⟨h1, h2⟩
      exact ⟨h1, q, rfl, h2⟩
    · rintro ⟨h1, q', hlq', h2⟩
      cases hlq'
      exact ⟨h1, h2⟩
  · intro qid _ h0
    unfold gradedCorrect
    cases hl : lookup qid with
    | none => rfl
    | some q' => simp [h0]
  · show (if order.length = 0 then (0 : ℚ)
        else round2 (((order.countP (gradedCorrect tenant lookup answers) : ℚ)
          / (order.length : ℚ)) * 100)) = _
    split
    · rfl
    · congr 1
      ring

/-- C1 witness: grading an attempt over the two sample questions where
question 7 is answered exactly right and question 8 is unanswered gives
1 correct out of 2 and a 50% score. -/
theorem grade_attempt_postcondition_witness :
    (∀ qid ∈ [7, 8], ∃ q, sampleQuestionLookup qid = some q ∧ q.tenant_id = 1) ∧
    ((gradeAttempt 1 [7, 8] sampleQuestionLookup sampleAnswers).num_questions
        = ([7, 8] : List ℕ).length ∧
      (∀ qid ∈ [7, 8],
        gradedCorrect 1 sampleQuestionLookup sampleAnswers qid = true ↔
          ((sampleAnswers qid).Nonempty ∧
            ∃ q, sampleQuestionLookup qid = some q ∧
              sampleAnswers qid = correctChoiceIds q)) ∧
      (∀ qid ∈ [7, 8], sampleAnswers qid = ∅ →
        gradedCorrect 1 sampleQuestionLookup sampleAnswers qid = false) ∧
      (gradeAttempt 1 [7, 8] sampleQuestionLookup sampleAnswers).num_correct
        = ([7, 8] : List ℕ).countP (gradedCorrect 1 sampleQuestionLookup sampleAnswers) ∧
      (gradeAttempt 1 [7, 8] sampleQuestionLookup sampleAnswers).score_percent
        = (if ([7, 8] : List ℕ).length = 0 then 0
           else round2 (100 * ((([7, 8] : List ℕ).countP
               (gradedCorrect 1 sampleQuestionLookup sampleAnswers) : ℚ))
             / (([7, 8] : List ℕ).length : ℚ)))) :=
  ⟨fun qid hm => by
      rcases List.mem_cons.mp hm with h7 | hm2
      · exact ⟨sampleQuestion7, by rw [h7]; decide, by decide⟩
      · rcases List.mem_cons.mp hm2 with h8 | hnil
        · exact ⟨sampleQuestion8, by rw [h8]; decide, by decide⟩
        · exact absurd hnil (List.not_mem_nil qid),
    grade_attempt_postcondition 1 [7, 8] sampleQuestionLookup sampleAnswers
      (fun qid hm => by
        rcases List.mem_cons.mp hm with h7 | hm2
        · exact ⟨sampleQuestion7, by rw [h7]; decide, by decide⟩
        · rcases List.mem_cons.mp hm2 with h8 | hnil
          · exact ⟨sampleQuestion8, by rw [h8]; decide, by decide⟩
          · exact absurd hnil (List.not_mem_nil qid))⟩

/-- A limit that is unset, or at least the list's length, never truncates. -/
theorem applyLimit_of_le (qlimit : Option ℤ) (l : List ℕ)
    (h : qlimit = none ∨ ∃ k, qlimit = some k ∧ (l.length : ℤ) ≤ k) :
    applyLimit qlimit l = l := by
  rcases h with h | ⟨k, hk, hkl⟩
  · subst h
    rfl
  · rw [hk]
    by_cases h0 : 0 < k
    · simp only [applyLimit, if_pos h0]
      exact List.take_of_length_le (by omega)
    · simp only [applyLimit, if_neg h0]

/-- A limit truncation is a sublist of the shuffled candidates. -/
theorem applyLimit_sublist (qlimit : Option ℤ) (l : List ℕ) :
    (applyLimit qlimit l).Sublist l := by
  cases qlimit with
  | none => exact List.Sublist.refl l
  | some k =>
    by_cases h0 : 0 < k
    · simp only [applyLimit, if_pos h0]
      exact List.take_sublist _ _
    · simp only [applyLimit, if_neg h0]
      exact List.Sublist.refl l

/-- Truncating a non-empty candidate list never empties it (a positive
limit keeps at least one element, a non-positive one keeps all). -/
theorem applyLimit_ne_nil (qlimit : Option ℤ) (l : List ℕ) (h : l ≠ []) :
    applyLimit qlimit l ≠ [] := by
  cases qlimit with
  | none => exact h
  | some k =>
    by_cases h0 : 0 < k
    · simp only [applyLimit, if_pos h0]
      intro hc
      rcases List.take_eq_nil_iff.mp hc with h1 | h2
      · omega
      · exact h h2
    · simp only [applyLimit, if_neg h0]
      exact h

/-- C3: one draw of the cycling selection, from a state where the
asked-set is inside the pool (any state reachable from an empty asked-set
with a fixed pool) and with the pool's ids distinct.  For every draw —
truncated by a `question_limit` or not — the draw succeeds, the selection
has no duplicates and stays inside the pool, it repeats no asked question
while the asked-set does not yet cover the pool, the updated asked-set
stays inside the pool, and the reset fires exactly when the asked-set
covers the pool.  When additionally the limit is unset or at least the
pool size, the selection is exactly a permutation of the not-yet-asked
remainder (of the whole pool when a new cycle starts) and the updated
asked-set is the full pool. -/
theorem draw_selection_cycle_invariant
    (shuffle : List ℕ → List ℕ) (pool : List ℕ) (qlimit : Option ℤ) (asked : Finset ℕ)
    (hs : ∀ l, (shuffle l).Perm l) (hnd : pool.Nodup) (hne : pool ≠ [])
    (hsub : asked ⊆ pool.toFinset) :
    ∃ sel askedNew,
      drawSelection shuffle pool qlimit asked = some (sel, askedNew) ∧
      sel.Nodup ∧
      (∀ q ∈ sel, q ∈ pool) ∧
      (¬ pool.toFinset ⊆ asked → ∀ q ∈ sel, q ∉ asked) ∧
      askedNew ⊆ pool.toFinset ∧
      (drawResets pool asked ↔ pool.toFinset ⊆ asked) ∧
      ((qlimit = none ∨ ∃ k, qlimit = some k ∧ (pool.length : ℤ) ≤ k) →
        (¬ pool.toFinset ⊆ asked →
          sel.Perm (pool.filter (fun q => decide (q ∉ asked)))) ∧
        (pool.toFinset ⊆ asked → sel.Perm pool) ∧
        askedNew = pool.toFinset) := by
  have hcard : pool.toFinset.card = pool.length := List.toFinset_card_of_nodup hnd
  have hresetIff : drawResets pool asked ↔ pool.toFinset ⊆ asked := by
    constructor
    · intro hle
      have heq : asked = pool.toFinset :=
        Finset.eq_of_subset_of_card_le hsub (by rw [hcard]; exact hle)
      rw [heq]
    · intro hcov
      have heq : asked = pool.toFinset := Finset.Subset.antisymm hsub hcov
      show pool.length ≤ asked.card
      rw [heq, hcard]
  by_cases hcov : pool.toFinset ⊆ asked
  · have hreset : drawResets pool asked := hresetIff.mpr hcov
    have hperm : (shuffle pool).Perm pool := hs pool
    have hfilter : pool.filter (fun q => decide (q ∉ (∅ : Finset ℕ))) = pool := by
      simp
    have hshuf_ne : shuffle pool ≠ [] := by
      intro h0
      apply hne
      have hl := hperm.length_eq
      rw [h0] at hl
      exact List.length_eq_zero.mp hl.symm
    have hsel_ne : applyLimit qlimit (shuffle pool) ≠ [] :=
      applyLimit_ne_nil _ _ hshuf_ne
    have hsub_sel : (applyLimit qlimit (shuffle pool)).Sublist (shuffle pool) :=
      applyLimit_sublist _ _
    have hdraw : drawSelection shuffle pool qlimit asked
        = some (applyLimit qlimit (shuffle pool),
            (∅ : Finset ℕ) ∪ (applyLimit qlimit (shuffle pool)).toFinset) := by
      unfold drawSelection
      rw [if_neg hne, if_pos hreset]
      simp only [hfilter, ite_self, if_neg hsel_ne]
    have hmem_pool : ∀ q ∈ applyLimit qlimit (shuffle pool), q ∈ pool :=
      fun q hq => hperm.mem_iff.mp (hsub_sel.subset hq)
    refine ⟨_, _, hdraw, ?_, hmem_pool, ?_, ?_, hresetIff, ?_⟩
    · exact (hperm.nodup_iff.mpr hnd).sublist hsub_sel
    · intro hncov
      exact absurd hcov hncov
    · intro a ha
      rcases Finset.mem_union.mp ha with h | h
      · exact absurd h (Finset.not_mem_empty a)
      · exact List.mem_toFinset.mpr (hmem_pool a (List.mem_toFinset.mp h))
    · intro hlim
      have happly : applyLimit qlimit (shuffle pool) = shuffle pool := by
        apply applyLimit_of_le
        rcases hlim with h | ⟨k, hk, hkl⟩
        · exact Or.inl h
        · exact Or.inr ⟨k, hk, by rw [hperm.length_eq]; exact hkl⟩
      rw [happly]
      refine ⟨?_, ?_, ?_⟩
      · intro hncov
        exact absurd hcov hncov
      · intro _
        exact hperm
      · rw [Finset.empty_union]
        ext a
        simp [List.mem_toFinset, hperm.mem_iff]
  · have hnr : ¬ drawResets pool asked := fun hr => hcov (hresetIff.mp hr)
    set avail := pool.filter (fun q => decide (q ∉ asked)) with havail
    have hperm : (shuffle avail).Perm avail := hs avail
    have hav_ne : avail ≠ [] := by
      obtain ⟨x, hx, hxa⟩ := Finset.not_subset.mp hcov
      apply List.ne_nil_of_mem (a := x)
      rw [havail]
      exact List.mem_filter.mpr ⟨List.mem_toFinset.mp hx, by simpa using hxa⟩
    have hav_isEmpty : avail.isEmpty = false := by
      cases h : avail with
      | nil => exact absurd h hav_ne
      | cons x xs => rfl
    have hshuf_ne : shuffle avail ≠ [] := by
      intro h0
      apply hav_ne
      have hl := hperm.length_eq
      rw [h0] at hl
      exact List.length_eq_zero.mp hl.symm
    have hsel_ne : applyLimit qlimit (shuffle avail) ≠ [] :=
      applyLimit_ne_nil _ _ hshuf_ne
    have hsub_sel : (applyLimit qlimit (shuffle avail)).Sublist (shuffle avail) :=
      applyLimit_sublist _ _
    have hdraw : drawSelection shuffle pool qlimit asked
        = some (applyLimit qlimit (shuffle avail),
            asked ∪ (applyLimit qlimit (shuffle avail)).toFinset) := by
      unfold drawSelection
      rw [if_neg hne, if_neg hnr]
      simp only [← havail, hav_isEmpty, Bool.false_eq_true, if_false, if_neg hsel_ne]
    have hmem_avail : ∀ q ∈ applyLimit qlimit (shuffle avail), q ∈ avail :=
      fun q hq => hperm.mem_iff.mp (hsub_sel.subset hq)
    refine ⟨_, _, hdraw, ?_, ?_, ?_, ?_, hresetIff, ?_⟩
    · exact (hperm.nodup_iff.mpr (hnd.filter _)).sublist hsub_sel
    · intro q hq
      have hm := hmem_avail q hq
      rw [havail] at hm
      exact (List.mem_filter.mp hm).1
    · intro _ q hq
      have hm := hmem_avail q hq
      rw [havail] at hm
      simpa using (List.mem_filter.mp hm).2
    · intro a ha
      rcases Finset.mem_union.mp ha with h | h
      · exact hsub h
      · have hm := hmem_avail a (List.mem_toFinset.mp h)
        rw [havail] at hm
        exact List.mem_toFinset.mpr (List.mem_filter.mp hm).1
    · intro hlim
      have happly : applyLimit qlimit (shuffle avail) = shuffle avail := by
        apply applyLimit_of_le
        rcases hlim with h | ⟨k, hk, hkl⟩
        · exact Or.inl h
        · refine Or.inr ⟨k, hk, ?_⟩
          have h1 : (shuffle avail).length ≤ pool.length := by
            rw [hperm.length_eq, havail]
            exact List.length_filter_le _ _
          omega
      rw [happly]
      have hunion : asked ∪ (shuffle avail).toFinset = pool.toFinset := by
        have htf : (shuffle avail).toFinset = avail.toFinset := by
          ext a
          simp [List.mem_toFinset, hperm.mem_iff]
        rw [htf]
        ext a
        simp only [Finset.mem_union, List.mem_toFinset, havail, List.mem_filter,
          decide_eq_true_eq]
        constructor
        · rintro (ha | ⟨hp, _⟩)
          · exact List.mem_toFinset.mp (hsub ha)
          · exact hp
        · intro hp
          by_cases ha : a ∈ asked
          · exact Or.inl ha
          · exact Or.inr ⟨hp, ha⟩
      exact ⟨fun _ => hperm, fun hc => absurd hc hcov, hunion⟩

/-- C3 witness: drawing with an identity shuffle from pool `[1, 2, 3]`
with asked-set `{1}` and no limit. -/
theorem draw_selection_cycle_invariant_witness :
    (∀ l : List ℕ, (id l).Perm l) ∧ ([1, 2, 3] : List ℕ).Nodup ∧
      ([1, 2, 3] : List ℕ) ≠ [] ∧
      ({1} : Finset ℕ) ⊆ ([1, 2, 3] : List ℕ).toFinset ∧
      (∃ sel askedNew,
        drawSelection id [1, 2, 3] none {1} = some (sel, askedNew) ∧
        sel.Nodup ∧
        (∀ q ∈ sel, q ∈ ([1, 2, 3] : List ℕ)) ∧
        (¬ ([1, 2, 3] : List ℕ).toFinset ⊆ ({1} : Finset ℕ) →
          ∀ q ∈ sel, q ∉ ({1} : Finset ℕ)) ∧
        askedNew ⊆ ([1, 2, 3] : List ℕ).toFinset ∧
        (drawResets [1, 2, 3] {1} ↔ ([1, 2, 3] : List ℕ).toFinset ⊆ ({1} : Finset ℕ)) ∧
        (((none : Option ℤ) = none ∨
            ∃ k, (none : Option ℤ) = some k ∧ ((([1, 2, 3] : List ℕ).length : ℤ) ≤ k)) →
          (¬ ([1, 2, 3] : List ℕ).toFinset ⊆ ({1} : Finset ℕ) →
            sel.Perm (([1, 2, 3] : List ℕ).filter (fun q => decide (q ∉ ({1} : Finset ℕ))))) ∧
          (([1, 2, 3] : List ℕ).toFinset ⊆ ({1} : Finset ℕ) → sel.Perm [1, 2, 3]) ∧
          askedNew = ([1, 2, 3] : List ℕ).toFinset)) :=
  ⟨fun l => List.Perm.refl l, by decide, by decide, by decide,
    draw_selection_cycle_invariant id [1, 2, 3] none {1} (fun l => List.Perm.refl l)
      (by decide) (by decide) (by decide)⟩

/-- The character list of a comma-join. -/
theorem joinComma_toList : ∀ ss : List String,
    (joinComma ss).toList = charJoinComma (ss.map String.toList)
  | [] => rfl
  | [s] => rfl
  | s :: s2 :: rest => by
    show (s ++ "," ++ joinComma (s2 :: rest)).toList
        = s.toList ++ ',' :: charJoinComma ((s2 :: rest).map String.toList)
    rw [← joinComma_toList (s2 :: rest)]
    simp [String.toList, String.data_append]

/-- Splitting a comma-free piece returns just the piece. -/
theorem splitComma_no_comma (p : List Char) (hp : ',' ∉ p) : splitComma p = [p] := by
  induction p with
  | nil => rfl
  | cons c cs ih =>
    have hc : c ≠ ',' := fun h => hp (h ▸ List.mem_cons_self c cs)
    have hcs : ',' ∉ cs := fun h => hp (List.mem_cons_of_mem c h)
    simp [splitComma, hc, ih hcs]

/-- Splitting past a leading comma-free piece. -/
theorem splitComma_append (p t : List Char) (hp : ',' ∉ p) :
    splitComma (p ++ ',' :: t) = p :: splitComma t := by
  induction p with
  | nil => simp [splitComma]
  | cons c cs ih =>
    have hc : c ≠ ',' := fun h => hp (h ▸ List.mem_cons_self c cs)
    have hcs : ',' ∉ cs := fun h => hp (List.mem_cons_of_mem c h)
    show splitComma (c :: (cs ++ ',' :: t)) = (c :: cs) :: splitComma t
    simp [splitComma, hc, ih hcs]

/-- `splitComma` inverts `charJoinComma` on comma-free pieces. -/
theorem splitComma_charJoin : ∀ ps : List (List Char), (∀ p ∈ ps, ',' ∉ p) →
    ps ≠ [] → splitComma (charJoinComma ps) = ps
  | [], _, hne => absurd rfl hne
  | [p], h, _ => splitComma_no_comma p (h p (by simp))
  | p :: p2 :: rest, h, _ => by
    show splitComma (p ++ ',' :: charJoinComma (p2 :: rest)) = p :: (p2 :: rest)
    rw [splitComma_append p _ (h p (by simp)),
      splitComma_charJoin (p2 :: rest) (fun q hq => h q (by simp [hq])) (by simp)]

/-- Space removal and upper-casing distribute over the comma-join (the
comma survives both). -/
theorem cleanup_charJoin : ∀ ps : List (List Char),
    cleanupChars (charJoinComma ps) = charJoinComma (ps.map cleanupChars)
  | [] => rfl
  | [p] => rfl
  | p :: p2 :: rest => by
    show cleanupChars (p ++ ',' :: charJoinComma (p2 :: rest))
        = cleanupChars p ++ ',' :: charJoinComma ((p2 :: rest).map cleanupChars)
    rw [← cleanup_charJoin (p2 :: rest)]
    simp [cleanupChars]

/-- Cleaning an arbitrary letter spelling leaves the single upper-case
letter. -/
theorem cleanup_letterTok : ∀ i < 26, ∀ lower pad : Bool,
    cleanupChars (letterTok i lower pad).toList = [asciiUppercase[i]?.getD 'A'] := by
  decide

/-- Upper-case letters are not commas. -/
theorem asciiUppercase_ne_comma : ∀ i < 26, asciiUppercase[i]?.getD 'A' ≠ ',' := by
  decide

/-- `letter_map.index` recovers the alphabet position of an upper-case
letter. -/
theorem letterIndexOf_getElem : ∀ i < 26,
    letterIndexOf [asciiUppercase[i]?.getD 'A'] = some i := by
  decide

/-- A letter token is never the empty string. -/
theorem letterTok_toList_ne : ∀ i < 26, ∀ lower pad : Bool,
    (letterTok i lower pad).toList ≠ [] := by
  decide

/-- The range filter applied to the mapped single-letter tokens. -/
theorem tokens_filterMap (n : ℕ) : ∀ l : List (ℕ × Bool × Bool), (∀ t ∈ l, t.1 < 26) →
    l.filterMap
        ((fun tok => (letterIndexOf tok).bind (fun i => if i < n then some i else none)) ∘
          (fun tk => [asciiUppercase[tk.1]?.getD 'A']))
      = (l.map (fun t => t.1)).filter (fun i => decide (i < n)) := by
  intro l hl
  induction l with
  | nil => rfl
  | cons a l ih =>
    have ha := hl a (by simp)
    have ih2 := ih (fun t ht => hl t (by simp [ht]))
    by_cases h : a.1 < n <;>
      simp [List.filterMap_cons, List.filter_cons, Function.comp, h, ih2,
        letterIndexOf_getElem a.1 ha]

/-- C8: the `correct` cell parser maps any comma-joined sequence of
letters — upper or lower case, optionally space-padded — to their 0-based
alphabet positions in cell order, silently dropping positions not below
the option count; a blank cell yields no indices; and the spec's sample
sheet row (options `2`, `4`, correct cell `B`) parses to correct index
set `[1]`. -/
theorem correct_cell_letter_parsing :
    (∀ (n : ℕ) (toks : List (ℕ × Bool × Bool)), (∀ t ∈ toks, t.1 < 26) →
      parseCorrectCell (joinComma (toks.map (fun t => letterTok t.1 t.2.1 t.2.2))) n
        = (toks.map (fun t => t.1)).filter (fun i => decide (i < n))) ∧
    (∀ n, parseCorrectCell "" n = []) ∧
    parseDataRow (canonicalHeaders ["Question", "Type", "Option1", "Option2", "Correct"])
        ["2+2?", "single", "2", "4", "B"]
      = .ok (some { text := "2+2?", qtype := "single",
                    options := [("2", none), ("4", none)],
                    correct := [1], reason := none, image_path := none }) := by
  refine ⟨?_, fun n => rfl, by decide⟩
  intro n toks htoks
  cases toks with
  | nil => rfl
  | cons t ts =>
    have hhead : (letterTok t.1 t.2.1 t.2.2).toList ≠ [] :=
      letterTok_toList_ne t.1 (htoks t (by simp)) t.2.1 t.2.2
    have hraw_ne : joinComma ((t :: ts).map (fun tk => letterTok tk.1 tk.2.1 tk.2.2)) ≠ "" := by
      intro h0
      have h1 : (joinComma ((t :: ts).map (fun tk => letterTok tk.1 tk.2.1 tk.2.2))).toList
          = [] := by rw [h0]; rfl
      rw [joinComma_toList] at h1
      cases ts with
      | nil => exact hhead h1
      | cons t2 ts2 =>
        exact hhead (List.append_eq_nil.mp h1).1
    unfold parseCorrectCell
    rw [if_neg hraw_ne, joinComma_toList, cleanup_charJoin, List.map_map, List.map_map]
    have hclean : ((t :: ts).map ((cleanupChars ∘ String.toList) ∘
          fun tk => letterTok tk.1 tk.2.1 tk.2.2))
        = (t :: ts).map (fun tk => [asciiUppercase[tk.1]?.getD 'A']) := by
      apply List.map_congr_left
      intro tk htk
      exact cleanup_letterTok tk.1 (htoks tk htk) tk.2.1 tk.2.2
    rw [hclean]
    rw [splitComma_charJoin _ ?_ (by simp)]
    · rw [List.filterMap_map]
      exact tokens_filterMap n (t :: ts) htoks
    · intro p hp
      obtain ⟨tk, htk, hpe⟩ := List.mem_map.mp hp
      rw [← hpe]
      intro hc
      rcases List.mem_singleton.mp hc with h
      exact asciiUppercase_ne_comma tk.1 (htoks tk htk) h.symm

/-- C8 witness: the single lower-case token `b` over two options parses
to index 1. -/
theorem correct_cell_letter_parsing_witness :
    (∀ t ∈ ([(1, false, false)] : List (ℕ × Bool × Bool)), t.1 < 26) ∧
      parseCorrectCell (joinComma (([(1, false, false)] : List (ℕ × Bool × Bool)).map
          (fun t => letterTok t.1 t.2.1 t.2.2))) 2
        = (([(1, false, false)] : List (ℕ × Bool × Bool)).map (fun t => t.1)).filter
            (fun i => decide (i < 2)) :=
  ⟨by decide, correct_cell_letter_parsing.1 2 [(1, false, false)] (by decide)⟩

/-- Header resolution of the exported sheet. -/
theorem export_resolve : resolveHeader exportHeader = .ok exportCanonical := by
  decide

/-- The column context of the exported sheet. -/
theorem export_ctx : mkSheetCtx exportCanonical
    = { iQuestion := 0, iType := 2, iQImage := some 1, iCorrect := some 15,
        iReason := some 16,
        optionCols := [(1, 3), (2, 5), (3, 7), (4, 9), (5, 11), (6, 13)],
        imageCols := [(1, 4), (2, 6), (3, 8), (4, 10), (5, 12), (6, 14)] } := by
  decide

/-- The stored type strings re-classify to themselves. -/
theorem qtype_reclassify :
    strContains (pyLower (pyStrip "single")) "multi" = false ∧
    strContains (pyLower (pyStrip "multiple")) "multi" = true := by
  decide

/-- Re-importing the exported `Correct` cell of 2 to 6 choices recovers
exactly the positions of the correct choices. -/
theorem parseCorrect_export (cs : List ChoiceRec) (h2 : 2 ≤ cs.length)
    (h6 : cs.length ≤ 6) :
    parseCorrectCell (exportCorrectCell cs) cs.length = corrIdxList cs := by
  rcases cs with _ | ⟨c1, _ | ⟨c2, _ | ⟨c3, _ | ⟨c4, _ | ⟨c5, _ | ⟨c6, _ | ⟨c7, rest⟩⟩⟩⟩⟩⟩⟩
  · simp at h2
  · simp at h2
  · cases hb1 : c1.is_correct <;> cases hb2 : c2.is_correct <;>
      simp [exportCorrectCell, corrIdxList, List.enum, List.enumFrom, hb1, hb2] <;>
        decide
  · cases hb1 : c1.is_correct <;> cases hb2 : c2.is_correct <;>
      cases hb3 : c3.is_correct <;>
      simp [exportCorrectCell, corrIdxList, List.enum, List.enumFrom, hb1, hb2, hb3] <;>
        decide
  · cases hb1 : c1.is_correct <;> cases hb2 : c2.is_correct <;>
      cases hb3 : c3.is_correct <;> cases hb4 : c4.is_correct <;>
      simp [exportCorrectCell, corrIdxList, List.enum, List.enumFrom,
        hb1, hb2, hb3, hb4] <;> decide
  · cases hb1 : c1.is_correct <;> cases hb2 : c2.is_correct <;>
      cases hb3 : c3.is_correct <;> cases hb4 : c4.is_correct <;>
      cases hb5 : c5.is_correct <;>
      simp [exportCorrectCell, corrIdxList, List.enum, List.enumFrom,
        hb1, hb2, hb3, hb4, hb5] <;> decide
  · cases hb1 : c1.is_correct <;> cases hb2 : c2.is_correct <;>
      cases hb3 : c3.is_correct <;> cases hb4 : c4.is_correct <;>
      cases hb5 : c5.is_correct <;> cases hb6 : c6.is_correct <;>
      simp [exportCorrectCell, corrIdxList, List.enum, List.enumFrom,
        hb1, hb2, hb3, hb4, hb5, hb6] <;> decide
  · simp at h6

/-- One exported data row re-imports to the same question definition
modulo the image normalization folded into `importedOption` and
`importedImage`. -/
theorem parseRow_core (qtext qtypeStr : String) (qimg reason : Option String)
    (cs : List ChoiceRec)
    (htext : qtext ≠ "") (hqt : qtypeStr = "single" ∨ qtypeStr = "multiple")
    (h2 : 2 ≤ cs.length) (h6 : cs.length ≤ 6)
    (hopts : ∀ c ∈ cs, c.text ≠ "" ∧ pyStrip c.text = c.text)
    (hreason : reason ≠ some "") :
    parseDataRow exportCanonical
        ([qtext, qimg.getD "", qtypeStr] ++ exportOptionCells cs ++
          [exportCorrectCell cs, reason.getD ""])
      = .ok (some { text := qtext, qtype := qtypeStr,
                    options := cs.map importedOption,
                    correct := corrIdxList cs,
                    reason := reason,
                    image_path := importedImage qimg }) := by
  have hqtype : (if strContains (pyLower (pyStrip qtypeStr)) "multi"
      then "multiple" else "single") = qtypeStr := by
    rcases hqt with h | h <;> subst h <;> simp [qtype_reclassify.1, qtype_reclassify.2]
  have hreason2 : (if reason.getD "" = "" then none else some (reason.getD "")) = reason := by
    rcases reason with _ | r
    · simp
    · have hr : r ≠ "" := fun h => hreason (by rw [h])
      simp [hr]
  rcases cs with _ | ⟨c1, _ | ⟨c2, _ | ⟨c3, _ | ⟨c4, _ | ⟨c5, _ | ⟨c6, _ | ⟨c7, rest⟩⟩⟩⟩⟩⟩⟩
  · simp at h2
  · simp at h2
  · 
    obtain ⟨h1, h1t⟩ := hopts c1 (by simp)
    obtain ⟨h2, h2t⟩ := hopts c2 (by simp)
    have hcorr : parseCorrectCell (exportCorrectCell [c1, c2]) 2
        = corrIdxList [c1, c2] := by
      simpa using parseCorrect_export [c1, c2] (by simp) (by simp)
    show parseDataRowCtx (mkSheetCtx exportCanonical)
        [qtext, qimg.getD "", qtypeStr, c1.text, c1.image_path.getD "", c2.text, c2.image_path.getD "", "", "", "", "", "", "", "", "",
         exportCorrectCell [c1, c2], reason.getD ""] = _
    rw [export_ctx]
    simp [parseDataRowCtx, buildOptions, dropTrailingEmptyOptions, importedOption,
      importedImage, htext, h1, h1t, h2, h2t, hqtype, hreason2, hcorr]
  · 
    obtain ⟨h1, h1t⟩ := hopts c1 (by simp)
    obtain ⟨h2, h2t⟩ := hopts c2 (by simp)
    obtain ⟨h3, h3t⟩ := hopts c3 (by simp)
    have hcorr : parseCorrectCell (exportCorrectCell [c1, c2, c3]) 3
        = corrIdxList [c1, c2, c3] := by
      simpa using parseCorrect_export [c1, c2, c3] (by simp) (by simp)
    show parseDataRowCtx (mkSheetCtx exportCanonical)
        [qtext, qimg.getD "", qtypeStr, c1.text, c1.image_path.getD "", c2.text, c2.image_path.getD "", c3.text, c3.image_path.getD "", "", "", "", "", "", "",
         exportCorrectCell [c1, c2, c3], reason.getD ""] = _
    rw [export_ctx]
    simp [parseDataRowCtx, buildOptions, dropTrailingEmptyOptions, importedOption,
      importedImage, htext, h1, h1t, h2, h2t, h3, h3t, hqtype, hreason2, hcorr]
  · 
    obtain ⟨h1, h1t⟩ := hopts c1 (by simp)
    obtain ⟨h2, h2t⟩ := hopts c2 (by simp)
    obtain ⟨h3, h3t⟩ := hopts c3 (by simp)
    obtain ⟨h4, h4t⟩ := hopts c4 (by simp)
    have hcorr : parseCorrectCell (exportCorrectCell [c1, c2, c3, c4]) 4
        = corrIdxList [c1, c2, c3, c4] := by
      simpa using parseCorrect_export [c1, c2, c3, c4] (by simp) (by simp)
    show parseDataRowCtx (mkSheetCtx exportCanonical)
        [qtext, qimg.getD "", qtypeStr, c1.text, c1.image_path.getD "", c2.text, c2.image_path.getD "", c3.text, c3.image_path.getD "", c4.text, c4.image_path.getD "", "", "", "", "",
         exportCorrectCell [c1, c2, c3, c4], reason.getD ""] = _
    rw [export_ctx]
    simp [parseDataRowCtx, buildOptions, dropTrailingEmptyOptions, importedOption,
      importedImage, htext, h1, h1t, h2, h2t, h3, h3t, h4, h4t, hqtype, hreason2, hcorr]
  · 
    obtain ⟨h1, h1t⟩ := hopts c1 (by simp)
    obtain ⟨h2, h2t⟩ := hopts c2 (by simp)
    obtain ⟨h3, h3t⟩ := hopts c3 (by simp)
    obtain ⟨h4, h4t⟩ := hopts c4 (by simp)
    obtain ⟨h5, h5t⟩ := hopts c5 (by simp)
    have hcorr : parseCorrectCell (exportCorrectCell [c1, c2, c3, c4, c5]) 5
        = corrIdxList [c1, c2, c3, c4, c5] := by
      simpa using parseCorrect_export [c1, c2, c3, c4, c5] (by simp) (by simp)
    show parseDataRowCtx (mkSheetCtx exportCanonical)
        [qtext, qimg.getD "", qtypeStr, c1.text, c1.image_path.getD "", c2.text, c2.image_path.getD "", c3.text, c3.image_path.getD "", c4.text, c4.image_path.getD "", c5.text, c5.image_path.getD "", "", "",
         exportCorrectCell [c1, c2, c3, c4, c5], reason.getD ""] = _
    rw [export_ctx]
    simp [parseDataRowCtx, buildOptions, dropTrailingEmptyOptions, importedOption,
      importedImage, htext, h1, h1t, h2, h2t, h3, h3t, h4, h4t, h5, h5t, hqtype, hreason2, hcorr]
  · 
    obtain ⟨h1, h1t⟩ := hopts c1 (by simp)
    obtain ⟨h2, h2t⟩ := hopts c2 (by simp)
    obtain ⟨h3, h3t⟩ := hopts c3 (by simp)
    obtain ⟨h4, h4t⟩ := hopts c4 (by simp)
    obtain ⟨h5, h5t⟩ := hopts c5 (by simp)
    obtain ⟨h6, h6t⟩ := hopts c6 (by simp)
    have hcorr : parseCorrectCell (exportCorrectCell [c1, c2, c3, c4, c5, c6]) 6
        = corrIdxList [c1, c2, c3, c4, c5, c6] := by
      simpa using parseCorrect_export [c1, c2, c3, c4, c5, c6] (by simp) (by simp)
    show parseDataRowCtx (mkSheetCtx exportCanonical)
        [qtext, qimg.getD "", qtypeStr, c1.text, c1.image_path.getD "", c2.text, c2.image_path.getD "", c3.text, c3.image_path.getD "", c4.text, c4.image_path.getD "", c5.text, c5.image_path.getD "", c6.text, c6.image_path.getD "",
         exportCorrectCell [c1, c2, c3, c4, c5, c6], reason.getD ""] = _
    rw [export_ctx]
    simp [parseDataRowCtx, buildOptions, dropTrailingEmptyOptions, importedOption,
      importedImage, htext, h1, h1t, h2, h2t, h3, h3t, h4, h4t, h5, h5t, h6, h6t, hqtype, hreason2, hcorr]
  · simp at h6

/-- An exported question row re-imports to its question definition. -/
theorem parseDataRow_exportRow (q : QuestionRec) (h : WellFormedQuestion q) :
    parseDataRow exportCanonical (exportRow q)
      = .ok (some { text := q.text, qtype := q.qtype,
                    options := q.choices.map importedOption,
                    correct := corrIdxList q.choices,
                    reason := q.reason,
                    image_path := importedImage q.image_path }) := by
  obtain ⟨ht, hqt, hl2, hl6, hos, hr⟩ := h
  exact parseRow_core q.text q.qtype q.image_path q.reason q.choices ht hqt hl2 hl6 hos hr

/-- The whole exported data region re-imports to the mapped question
definitions. -/
theorem parseRows_export (qs : List QuestionRec)
    (hwf : ∀ q ∈ qs, WellFormedQuestion q) :
    parseRows exportCanonical (qs.map exportRow)
      = .ok (qs.map (fun q =>
          ({ text := q.text, qtype := q.qtype,
             options := q.choices.map importedOption,
             correct := corrIdxList q.choices,
             reason := q.reason,
             image_path := importedImage q.image_path } : QDef))) := by
  induction qs with
  | nil => rfl
  | cons q qs ih =>
    have hq := parseDataRow_exportRow q (hwf q (by simp))
    have ih2 := ih (fun p hp => hwf p (by simp [hp]))
    simp [parseRows, hq, ih2]

/-- C6: exporting a non-empty list of well-formed questions to the
spreadsheet format and re-importing the result succeeds and yields, in
the same order, question definitions with the same text, type, option
texts, correctness index set and reason (option columns being padded to
6 on export and trimmed back on import). -/
theorem export_import_round_trip (qs : List QuestionRec) (hne : qs ≠ [])
    (hwf : ∀ q ∈ qs, WellFormedQuestion q) :
    ∃ defs, parseQuestionsFromExcel exportHeader (qs.map exportRow) = .ok defs ∧
      List.Forall₂ (fun (d : QDef) (q : QuestionRec) =>
        d.text = q.text ∧ d.qtype = q.qtype ∧
        d.options.map Prod.fst = q.choices.map (fun c => c.text) ∧
        d.correct.toFinset = (corrIdxList q.choices).toFinset ∧
        d.reason = q.reason) defs qs := by
  refine ⟨qs.map (fun q =>
      ({ text := q.text, qtype := q.qtype,
         options := q.choices.map importedOption,
         correct := corrIdxList q.choices,
         reason := q.reason,
         image_path := importedImage q.image_path } : QDef)), ?_, ?_⟩
  · have hr := parseRows_export qs hwf
    simp [parseQuestionsFromExcel, export_resolve, hr, hne]
  · rw [List.forall₂_map_left_iff]
    rw [List.forall₂_same]
    intro q _
    refine ⟨rfl, rfl, ?_, rfl, rfl⟩
    simp [importedOption]

/-- C6 witness: the concrete three-choice question round-trips. -/
theorem export_import_round_trip_witness :
    (([roundTripQ1] : List QuestionRec) ≠ [] ∧
      (∀ q ∈ [roundTripQ1], WellFormedQuestion q)) ∧
    (∃ defs, parseQuestionsFromExcel exportHeader ([roundTripQ1].map exportRow)
        = .ok defs ∧
      List.Forall₂ (fun (d : QDef) (q : QuestionRec) =>
        d.text = q.text ∧ d.qtype = q.qtype ∧
        d.options.map Prod.fst = q.choices.map (fun c => c.text) ∧
        d.correct.toFinset = (corrIdxList q.choices).toFinset ∧
        d.reason = q.reason) defs [roundTripQ1]) :=
  ⟨⟨by decide, by decide⟩,
    export_import_round_trip [roundTripQ1] (by decide) (by decide)⟩

end ExamSys
